import Mathlib

/-!
A verification development for a small Python pipeline (`main.py`) that
fetches character records from a REST API, caches them in Redis as JSON,
and produces simple reports (status distribution, species filter, name
search).  The Python classes are shallowly embedded: pure computations
become Lean functions, printing and chart rendering become explicit event
lists, the Redis store becomes a function from keys to optional strings,
and process-level control flow (exceptions, `exit(1)`) becomes explicit
result values.
-/

/-- One character record.  The program only ever reads the `name`,
`status` and `species` fields of the fetched JSON objects. -/
structure Record where
  name : String
  status : String
  species : String
deriving DecidableEq, Repr

/-- Model of Python `str.lower()` as used by `main.py` (the data compared
is ASCII); `Char.toLower` lowercases exactly the ASCII letters. -/
def pyLower (s : String) : String :=
  String.mk (s.data.map Char.toLower)

/-- Model of Python's substring test `needle in haystack`: some contiguous
slice of `haystack` equals `needle` (the empty needle always matches). -/
def strIn : List Char → List Char → Bool
  | needle, [] => needle.isEmpty
  | needle, c :: t => needle.isPrefixOf (c :: t) || strIn needle t

/-- Observable effects of the report methods of `CharacterDataProcessor`:
lines printed to stdout, and the chart-file save / interactive show
performed by `display_status_distribution` via matplotlib. -/
inductive PEvent where
  | printed (line : String)
  | chartSaved (path : String) (dist : List (String × Nat))
  | chartShown
deriving DecidableEq, Repr

/-- One step of Python's `collections.Counter` construction: increment the
count of `s` if the key is present, otherwise append it with count 1
(dict insertion order keeps first occurrences first). -/
def counterBump : List (String × Nat) → String → List (String × Nat)
  | [], s => [(s, 1)]
  | (k, v) :: t, s => if k = s then (k, v + 1) :: t else (k, v) :: counterBump t s

/-- Python `collections.Counter(xs)` as an insertion-ordered association
list from keys to counts. -/
def pyCounter (l : List String) : List (String × Nat) :=
  l.foldl counterBump []

/-- The distinct elements of `l` in order of first occurrence (used to
state the enumeration-order part of the status-distribution claim). -/
def firstOccs (l : List String) : List String :=
  l.foldl (fun acc s => if s ∈ acc then acc else acc ++ [s]) []

/-- `CharacterDataProcessor`: holds the record list supplied at
construction (`self.data`). -/
structure CharacterDataProcessor where
  data : List Record
deriving DecidableEq, Repr

/-- `display_status_distribution`: builds `Counter(character['status'])`
over `self.data`, renders a bar chart, saves it to `save_path`, and shows
it.  Returns the post-state of `self` and the emitted effects. -/
def display_status_distribution (p : CharacterDataProcessor) (save_path : String) :
    CharacterDataProcessor × List PEvent :=
  let status_distribution := pyCounter (p.data.map Record.status)
  (p, [PEvent.chartSaved save_path status_distribution, PEvent.chartShown])

/-- `show_characters_by_species`: filters `self.data` by
`character['species'].lower() == target_species.lower()`, prints a header
and one line per match.  Returns the post-state of `self`, the computed
match list, and the printed lines. -/
def show_characters_by_species (p : CharacterDataProcessor) (target_species : String) :
    CharacterDataProcessor × (List Record × List PEvent) :=
  let species_matches :=
    p.data.filter (fun character => pyLower character.species == pyLower target_species)
  (p, (species_matches,
    PEvent.printed ("\nList of \x27" ++ target_species ++ "\x27 characters:") ::
      species_matches.map
        (fun character => PEvent.printed ("- " ++ character.name ++ " (" ++ character.status ++ ")"))))

/-- `find_characters_by_name`: filters `self.data` by
`search_term.lower() in character['name'].lower()`; on no match prints a
single not-found message and returns early, otherwise prints a header and
one line per match.  Returns the post-state of `self`, the computed match
list, and the printed lines. -/
def find_characters_by_name (p : CharacterDataProcessor) (search_term : String) :
    CharacterDataProcessor × (List Record × List PEvent) :=
  let name_matches :=
    p.data.filter (fun character => strIn (pyLower search_term).data (pyLower character.name).data)
  if name_matches.isEmpty then
    (p, (name_matches,
      [PEvent.printed ("No characters found with \x27" ++ search_term ++ "\x27 in their name.")]))
  else
    (p, (name_matches,
      PEvent.printed ("\nCharacters containing \x27" ++ search_term ++ "\x27 in their name:") ::
        name_matches.map
          (fun character => PEvent.printed ("- " ++ character.name ++ " (" ++ character.species ++ ")"))))

/-- `process_data`: runs, in order, the status distribution (with chart
render), the species filter with target "Human", and the name search with
term "Morty". -/
def process_data (p : CharacterDataProcessor) : CharacterDataProcessor × List PEvent :=
  let r1 := display_status_distribution p "status_distribution.png"
  let r2 := show_characters_by_species r1.1 "Human"
  let r3 := find_characters_by_name r2.1 "Morty"
  (r3.1, r1.2 ++ r2.2.2 ++ r3.2.2)

/-- First-match lookup in a counter association list (0 when absent);
used to state what count a key of the Counter carries. -/
def lookupCount : List (String × Nat) → String → Nat
  | [], _ => 0
  | (k, v) :: t, s => if k = s then v else lookupCount t s

/-- An HTTP response as `get_characters` observes it: the status code and
the `results` array of the parsed JSON body. -/
structure HttpResponse where
  status_code : Nat
  results : List Record
deriving DecidableEq, Repr

/-- Outcome of `APICharacterRetriever.get_characters`: the returned record
list, a raised `HTTPError` carrying the status, or Python's implicit
`None` return (no raise, no result). -/
inductive FetchResult where
  | ok (results : List Record)
  | raised (status : Nat)
  | returnedNone
deriving DecidableEq, Repr

/-- `requests.Response.raise_for_status`: raises (returns `some status`)
exactly for 4xx and 5xx status codes. -/
def raise_for_status (status_code : Nat) : Option Nat :=
  if 400 ≤ status_code ∧ status_code < 600 then some status_code else none

/-- `get_characters`: returns `response.json()['results']` when the status
code is 200, otherwise calls `raise_for_status` and, when that does not
raise, falls off the end of the function (returning `None`). -/
def get_characters (response : HttpResponse) : FetchResult :=
  if response.status_code = 200 then FetchResult.ok response.results
  else
    match raise_for_status response.status_code with
    | some s => FetchResult.raised s
    | none => FetchResult.returnedNone

/-- Lowercase hex digit of `d` (how Python's `json` writes `\uXXXX`). -/
def hexDigitChar (d : Nat) : Char :=
  if d < 10 then Char.ofNat (48 + d) else Char.ofNat (87 + d)

/-- Four lowercase hex digits of `n`, most significant first. -/
def hex4 (n : Nat) : List Char :=
  [hexDigitChar (n / 4096 % 16), hexDigitChar (n / 256 % 16),
   hexDigitChar (n / 16 % 16), hexDigitChar (n % 16)]

/-- How `json.dumps` (with its default `ensure_ascii=True`) writes one
character of a string: the two-character escapes for quote, backslash and
the common control characters, other control characters and all
non-ASCII characters as `\uXXXX` (astral characters as a surrogate
pair), and the printable ASCII characters literally. -/
def escapeChar (c : Char) : List Char :=
  if c = '"' then ['\\', '"']
  else if c = '\\' then ['\\', '\\']
  else if c = '\n' then ['\\', 'n']
  else if c = '\r' then ['\\', 'r']
  else if c = '\t' then ['\\', 't']
  else if c = '\x08' then ['\\', 'b']
  else if c = '\x0c' then ['\\', 'f']
  else if c.toNat < 32 then '\\' :: 'u' :: hex4 c.toNat
  else if c.toNat < 127 then [c]
  else if c.toNat < 65536 then '\\' :: 'u' :: hex4 c.toNat
  else
    '\\' :: 'u' :: (hex4 (55296 + (c.toNat - 65536) / 1024) ++
      ('\\' :: 'u' :: hex4 (56320 + (c.toNat - 65536) % 1024)))

/-- JSON-escape every character of a string body. -/
def escapeList : List Char → List Char
  | [] => []
  | c :: t => escapeChar c ++ escapeList t

/-- Numeric value of one hex digit, upper or lower case. -/
def hexCharVal (c : Char) : Option Nat :=
  if 48 ≤ c.toNat ∧ c.toNat ≤ 57 then some (c.toNat - 48)
  else if 97 ≤ c.toNat ∧ c.toNat ≤ 102 then some (c.toNat - 87)
  else if 65 ≤ c.toNat ∧ c.toNat ≤ 70 then some (c.toNat - 55)
  else none

/-- Parse four hex digits into their value, returning the rest. -/
def parseHex4 : List Char → Option (Nat × List Char)
  | a :: b :: c :: d :: rest =>
    match hexCharVal a, hexCharVal b, hexCharVal c, hexCharVal d with
    | some x, some y, some z, some w => some (x * 4096 + y * 256 + z * 16 + w, rest)
    | _, _, _, _ => none
  | _ => none

/-- Parse one JSON string escape sequence (the part after the backslash),
as `json.loads` does: the short escapes, and `\uXXXX` with surrogate-pair
combination.  A lone surrogate is rejected (it denotes no Unicode scalar
value and cannot arise from `json.dumps` output for scalar strings). -/
def parseEscape : List Char → Option (Char × List Char)
  | [] => none
  | e :: rest =>
    if e = '"' then some ('"', rest)
    else if e = '\\' then some ('\\', rest)
    else if e = '/' then some ('/', rest)
    else if e = 'b' then some ('\x08', rest)
    else if e = 'f' then some ('\x0c', rest)
    else if e = 'n' then some ('\n', rest)
    else if e = 'r' then some ('\r', rest)
    else if e = 't' then some ('\t', rest)
    else if e = 'u' then
      match parseHex4 rest with
      | none => none
      | some (h, rest1) =>
        if 55296 ≤ h ∧ h < 56320 then
          match rest1 with
          | [] => none
          | a :: rest1a =>
            if a = '\\' then
              match rest1a with
              | [] => none
              | b :: rest2 =>
                if b = 'u' then
                  match parseHex4 rest2 with
                  | none => none
                  | some (lo, rest3) =>
                    if 56320 ≤ lo ∧ lo < 57344 then
                      some (Char.ofNat (65536 + (h - 55296) * 1024 + (lo - 56320)), rest3)
                    else none
                else none
            else none
        else if 56320 ≤ h ∧ h < 57344 then none
        else some (Char.ofNat h, rest1)
    else none

/-- Parse a JSON string body up to and including its closing quote; the
fuel argument bounds the recursion and is instantiated with the length
of the input at each call site. -/
def parseJStringAux : Nat → List Char → Option (List Char × List Char)
  | 0, _ => none
  | _ + 1, [] => none
  | fuel + 1, c :: rest =>
    if c = '"' then some ([], rest)
    else if c = '\\' then
      match parseEscape rest with
      | none => none
      | some (e, rest1) =>
        match parseJStringAux fuel rest1 with
        | none => none
        | some (s, rest2) => some (e :: s, rest2)
    else
      match parseJStringAux fuel rest with
      | none => none
      | some (s, rest1) => some (c :: s, rest1)

/-- Consume an expected literal character sequence. -/
def stripLit : List Char → List Char → Option (List Char)
  | [], l => some l
  | _ :: _, [] => none
  | p :: ps, c :: cs => if p = c then stripLit ps cs else none

/-- The opening of a serialized record: `{"name": "`. -/
def litRecStart : List Char := '\x7b' :: "\"name\": \"".data

/-- Between the name and status fields: `", "status": "`. -/
def litAfterName : List Char := ", \"status\": \"".data

/-- Between the status and species fields: `", "species": "`. -/
def litAfterStatus : List Char := ", \"species\": \"".data

/-- The closing of a serialized record: `"}` without its leading quote,
which the string parser consumes. -/
def litAfterSpecies : List Char := ['\x7d']

/-- `json.dumps` of one record (keys in the insertion order `name`,
`status`, `species`, separators `", "` and `": "`, Python defaults). -/
def dumpRecordChars (r : Record) : List Char :=
  litRecStart ++ (escapeList r.name.data ++ ('"' ::
    (litAfterName ++ (escapeList r.status.data ++ ('"' ::
      (litAfterStatus ++ (escapeList r.species.data ++ ('"' :: litAfterSpecies))))))))

/-- The `", "`-separated continuation of a serialized record list. -/
def joinTail : List Record → List Char
  | [] => []
  | r :: rs => ',' :: ' ' :: (dumpRecordChars r ++ joinTail rs)

/-- The serialized bodies of all records, `", "`-separated. -/
def dumpRecordsBody : List Record → List Char
  | [] => []
  | r :: rs => dumpRecordChars r ++ joinTail rs

/-- `json.dumps` of a record list. -/
def json_dumps (value : List Record) : String :=
  String.mk ('[' :: (dumpRecordsBody value ++ [']']))

/-- Parse one serialized record, returning the rest of the input. -/
def parseRecordChars (l : List Char) : Option (Record × List Char) :=
  match stripLit litRecStart l with
  | none => none
  | some l1 =>
    match parseJStringAux l1.length l1 with
    | none => none
    | some (nm, l2) =>
      match stripLit litAfterName l2 with
      | none => none
      | some l3 =>
        match parseJStringAux l3.length l3 with
        | none => none
        | some (st, l4) =>
          match stripLit litAfterStatus l4 with
          | none => none
          | some l5 =>
            match parseJStringAux l5.length l5 with
            | none => none
            | some (sp, l6) =>
              match stripLit litAfterSpecies l6 with
              | none => none
              | some l7 =>
                some (Record.mk (String.mk nm) (String.mk st) (String.mk sp), l7)

/-- Parse the records after the first one: either the closing bracket or
a `", "` separator followed by a record.  The fuel argument bounds the
recursion and is instantiated with the length of the input. -/
def parseItemsAux : Nat → List Char → Option (List Record × List Char)
  | 0, _ => none
  | _ + 1, [] => none
  | fuel + 1, c :: l =>
    if c = ']' then some ([], l)
    else if c = ',' then
      match l with
      | [] => none
      | d :: l2 =>
        if d = ' ' then
          match parseRecordChars l2 with
          | none => none
          | some (r, rest1) =>
            match parseItemsAux fuel rest1 with
            | none => none
            | some (rs, rest2) => some (r :: rs, rest2)
        else none
    else none

/-- `json.loads` restricted to the grammar `json.dumps` emits for record
lists: a bracketed, `", "`-separated sequence of three-field objects,
consuming the entire input. -/
def json_loads (s : String) : Option (List Record) :=
  match s.data with
  | [] => none
  | c :: l =>
    if c = '[' then
      match l with
      | [] => none
      | d :: l2 =>
        if d = ']' then (if l2.isEmpty then some [] else none)
        else
          match parseRecordChars l with
          | none => none
          | some (r, rest) =>
            match parseItemsAux rest.length rest with
            | none => none
            | some (rs, rest2) => if rest2.isEmpty then some (r :: rs) else none
    else none

/-- The Redis key space as `RedisDataHandler` uses it: string keys to
optional stored strings (`decode_responses=True`). -/
def RedisStore := String → Option String

/-- `save_data`: `redis_client.set(key, json.dumps(value))`. -/
def save_data (store : RedisStore) (key : String) (value : List Record) : RedisStore :=
  fun k => if k = key then some (json_dumps value) else store k

/-- Outcome of `load_data`: Python `None` (key absent or empty string
stored, both falsy), a decoded value, or a raised decode error. -/
inductive LoadResult where
  | absent
  | ok (value : List Record)
  | raisedDecode
deriving DecidableEq, Repr

/-- `load_data`: `json.loads(data) if data else None` over
`redis_client.get(key)`. -/
def load_data (store : RedisStore) (key : String) : LoadResult :=
  match store key with
  | none => LoadResult.absent
  | some data =>
    if data = "" then LoadResult.absent
    else
      match json_loads data with
      | some v => LoadResult.ok v
      | none => LoadResult.raisedDecode

/-- The workflow configuration (`WorkflowExecutor.__init__`). -/
structure WorkflowExecutor where
  api_endpoint : String
  redis_key : String

/-- Environment of one run: the response the endpoint produces, whether
the Redis server is reachable, and the connection-error text used in the
diagnostic when it is not. -/
structure RunEnv where
  response : HttpResponse
  redisUp : Bool
  redisErrMsg : String

/-- Process-level events of one run. -/
inductive Event where
  | printed (line : String)
  | redisSet (key : String) (value : String)
  | redisGet (key : String)
  | report (e : PEvent)
deriving DecidableEq, Repr

/-- How one run ends: normal completion, `exit(code)` from the Redis
ping handler, an uncaught `HTTPError`, or the `TypeError` from handing
`None` to the processor. -/
inductive RunResult where
  | completed
  | exitedWith (code : Nat)
  | raisedHttp (status : Nat)
  | raisedType
deriving DecidableEq, Repr

/-- The diagnostic `RedisDataHandler.ping` prints before `exit(1)`. -/
def redisDiagnostic (msg : String) : String :=
  "Unable to connect to Redis: " ++ msg

/-- `WorkflowExecutor.execute`: fetch the records, construct the Redis
handler (whose constructor pings and, on connection failure, prints a
diagnostic and exits with status 1), save the fetched data under the
configured key, then construct the processor over the fetched data and
run the default report. -/
def execute (ex : WorkflowExecutor) (env : RunEnv) : RunResult × List Event :=
  match get_characters env.response with
  | FetchResult.raised s => (RunResult.raisedHttp s, [])
  | FetchResult.returnedNone =>
    if env.redisUp then
      (RunResult.raisedType, [Event.redisSet ex.redis_key "null"])
    else
      (RunResult.exitedWith 1, [Event.printed (redisDiagnostic env.redisErrMsg)])
  | FetchResult.ok character_data =>
    if env.redisUp then
      (RunResult.completed,
        Event.redisSet ex.redis_key (json_dumps character_data)
          :: ((process_data (CharacterDataProcessor.mk character_data)).2.map Event.report))
    else
      (RunResult.exitedWith 1, [Event.printed (redisDiagnostic env.redisErrMsg)])

/-! Helper lemmas about the substring test and the Counter model. -/

theorem strIn_nil_left (h : List Char) : strIn [] h = true := by
  cases h <;> simp [strIn, List.isPrefixOf]

theorem strIn_eq_true_iff (n h : List Char) : strIn n h = true ↔ n <:+: h := by
  induction h with
  | nil => cases n <;> simp [strIn, List.isEmpty]
  | cons c t ih =>
      simp [strIn, List.isPrefixOf_iff_prefix, ih, List.infix_cons_iff]

theorem counterBump_fst (acc : List (String × Nat)) (s : String) :
    (counterBump acc s).map Prod.fst =
      if s ∈ acc.map Prod.fst then acc.map Prod.fst else acc.map Prod.fst ++ [s] := by
  induction acc with
  | nil => simp [counterBump]
  | cons kv t ih =>
      obtain ⟨k, v⟩ := kv
      by_cases h : k = s
      · subst h; simp [counterBump]
      · by_cases hm : s ∈ List.map Prod.fst t
        · simp [counterBump, h, ih, hm, Ne.symm h]
        · simp [counterBump, h, ih, hm, Ne.symm h]

theorem counterBump_sum (acc : List (String × Nat)) (s : String) :
    ((counterBump acc s).map Prod.snd).sum = ((acc.map Prod.snd)).sum + 1 := by
  induction acc with
  | nil => simp [counterBump]
  | cons kv t ih =>
      obtain ⟨k, v⟩ := kv
      by_cases h : k = s
      · subst h; simp [counterBump]; omega
      · simp [counterBump, h, ih]; omega

theorem lookupCount_bump_self (acc : List (String × Nat)) (s : String) :
    lookupCount (counterBump acc s) s = lookupCount acc s + 1 := by
  induction acc with
  | nil => simp [counterBump, lookupCount]
  | cons kv t ih =>
      obtain ⟨k, v⟩ := kv
      by_cases h : k = s
      · subst h; simp [counterBump, lookupCount]
      · simp [counterBump, lookupCount, h, ih]

theorem lookupCount_bump_other (acc : List (String × Nat)) (s k : String) (hk : k ≠ s) :
    lookupCount (counterBump acc s) k = lookupCount acc k := by
  induction acc with
  | nil => simp [counterBump, lookupCount, Ne.symm hk]
  | cons kv t ih =>
      obtain ⟨k0, v⟩ := kv
      by_cases h : k0 = s
      · subst h
        simp [counterBump, lookupCount, Ne.symm hk]
      · simp [counterBump, lookupCount, h, ih]

theorem pyCounter_append_one (l : List String) (s : String) :
    pyCounter (l ++ [s]) = counterBump (pyCounter l) s := by
  simp [pyCounter, List.foldl_append]

theorem firstOccs_append_one (l : List String) (s : String) :
    firstOccs (l ++ [s]) = if s ∈ firstOccs l then firstOccs l else firstOccs l ++ [s] := by
  simp [firstOccs, List.foldl_append]

theorem lookupCount_pyCounter (l : List String) (k : String) :
    lookupCount (pyCounter l) k = l.count k := by
  induction l using List.reverseRecOn with
  | nil => simp [pyCounter, lookupCount]
  | append_singleton l s ih =>
      rw [pyCounter_append_one]
      by_cases h : k = s
      · subst h; simp [lookupCount_bump_self, ih, List.count_append]
      · simp [lookupCount_bump_other _ _ _ h, ih, List.count_append, List.count_singleton,
          Ne.symm h]

theorem mem_firstOccs (l : List String) (s : String) : s ∈ firstOccs l ↔ s ∈ l := by
  induction l using List.reverseRecOn with
  | nil => simp [firstOccs]
  | append_singleton l a ih =>
      rw [firstOccs_append_one]
      by_cases h : a ∈ firstOccs l
      · simp [h, ih]
        intro he; subst he; exact ih.mp h
      · simp [h, ih]

theorem firstOccs_nodup (l : List String) : (firstOccs l).Nodup := by
  induction l using List.reverseRecOn with
  | nil => simp [firstOccs]
  | append_singleton l a ih =>
      rw [firstOccs_append_one]
      by_cases h : a ∈ firstOccs l
      · simpa [h] using ih
      · simp [h, List.nodup_append, ih]

theorem pyCounter_fst (l : List String) : (pyCounter l).map Prod.fst = firstOccs l := by
  induction l using List.reverseRecOn with
  | nil => simp [pyCounter, firstOccs]
  | append_singleton l s ih =>
      rw [pyCounter_append_one, firstOccs_append_one, counterBump_fst, ih]

theorem pyCounter_sum (l : List String) : ((pyCounter l).map Prod.snd).sum = l.length := by
  induction l using List.reverseRecOn with
  | nil => simp [pyCounter]
  | append_singleton l s ih =>
      rw [pyCounter_append_one]
      simp [counterBump_sum, ih]

theorem mem_lookupCount (acc : List (String × Nat)) (k : String) (v : Nat)
    (hnd : (acc.map Prod.fst).Nodup) (hm : (k, v) ∈ acc) : v = lookupCount acc k := by
  induction acc with
  | nil => simp at hm
  | cons kv t ih =>
      obtain ⟨k0, v0⟩ := kv
      simp at hm hnd
      rcases hm with ⟨hk, hv⟩ | hm
      · subst hk; subst hv; simp [lookupCount]
      · have hk0 : k0 ≠ k := by
          intro he; subst he
          exact hnd.1 v hm
        simp [lookupCount, hk0, ih hnd.2 hm]

/-- Branch-free description of `find_characters_by_name`. -/
theorem find_characters_by_name_eq (p : CharacterDataProcessor) (term : String) :
    find_characters_by_name p term =
      (p, (p.data.filter (fun c => strIn (pyLower term).data (pyLower c.name).data),
        if (p.data.filter (fun c => strIn (pyLower term).data (pyLower c.name).data)).isEmpty
        then [PEvent.printed ("No characters found with \x27" ++ term ++ "\x27 in their name.")]
        else PEvent.printed ("\nCharacters containing \x27" ++ term ++ "\x27 in their name:")
          :: (p.data.filter (fun c => strIn (pyLower term).data (pyLower c.name).data)).map
              (fun c => PEvent.printed ("- " ++ c.name ++ " (" ++ c.species ++ ")")))) := by
  unfold find_characters_by_name
  by_cases h : (p.data.filter (fun c => strIn (pyLower term).data (pyLower c.name).data)).isEmpty
  · simp [h]
  · simp [h]

/-- Claim C1: for every record list and target string, the species filter
returns exactly the subsequence of records whose species equals the
target case-insensitively, in input order, and the targets "Human",
"human" and "HUMAN" give identical results. -/
theorem claim_C1 (p : CharacterDataProcessor) (t : String) :
    (show_characters_by_species p t).2.1
        = p.data.filter (fun c => pyLower c.species == pyLower t)
    ∧ ((show_characters_by_species p t).2.1).Sublist p.data
    ∧ (∀ c : Record, c ∈ (show_characters_by_species p t).2.1
        ↔ c ∈ p.data ∧ pyLower c.species = pyLower t)
    ∧ (show_characters_by_species p "human").2.1 = (show_characters_by_species p "Human").2.1
    ∧ (show_characters_by_species p "HUMAN").2.1 = (show_characters_by_species p "Human").2.1 := by
  have hlow : pyLower "human" = pyLower "Human" := by decide
  have hup : pyLower "HUMAN" = pyLower "Human" := by decide
  refine ⟨rfl, List.filter_sublist _, ?_, ?_, ?_⟩
  · intro c
    show c ∈ p.data.filter (fun c => pyLower c.species == pyLower t) ↔ _
    simp [List.mem_filter]
  · show p.data.filter (fun c => pyLower c.species == pyLower "human")
        = p.data.filter (fun c => pyLower c.species == pyLower "Human")
    simp only [hlow]
  · show p.data.filter (fun c => pyLower c.species == pyLower "HUMAN")
        = p.data.filter (fun c => pyLower c.species == pyLower "Human")
    simp only [hup]

/-- Claim C3: the name search returns the subsequence of records whose
name contains the term case-insensitively, in input order; with no match
it prints a single not-found message and yields the empty sequence,
otherwise a header plus one line per match. -/
theorem claim_C3 (p : CharacterDataProcessor) (term : String) :
    (find_characters_by_name p term).2.1
        = p.data.filter (fun c => strIn (pyLower term).data (pyLower c.name).data)
    ∧ ((find_characters_by_name p term).2.1).Sublist p.data
    ∧ (∀ c : Record, c ∈ (find_characters_by_name p term).2.1
        ↔ c ∈ p.data ∧ (pyLower term).data <:+: (pyLower c.name).data)
    ∧ ((find_characters_by_name p term).2.1 = [] →
        (find_characters_by_name p term).2.2
          = [PEvent.printed ("No characters found with \x27" ++ term ++ "\x27 in their name.")])
    ∧ ((find_characters_by_name p term).2.1 ≠ [] →
        (find_characters_by_name p term).2.2
          = PEvent.printed ("\nCharacters containing \x27" ++ term ++ "\x27 in their name:")
              :: (find_characters_by_name p term).2.1.map
                  (fun c => PEvent.printed ("- " ++ c.name ++ " (" ++ c.species ++ ")"))) := by
  rw [find_characters_by_name_eq]
  refine ⟨rfl, List.filter_sublist _, ?_, ?_, ?_⟩
  · intro c
    simp [List.mem_filter, strIn_eq_true_iff]
  · intro h
    simp only at h
    simp [h]
  · intro h
    simp only at h
    have hne : (p.data.filter (fun c => strIn (pyLower term).data (pyLower c.name).data)).isEmpty
        = false := by
      simp [List.isEmpty_eq_false, h]
    simp [hne]

/-- Claim C3 witness: over the spec's fixture, searching for "zzz"
matches nothing and prints exactly the not-found message. -/
theorem claim_C3_witness :
    (find_characters_by_name
        (CharacterDataProcessor.mk
          [Record.mk "Morty Smith" "Alive" "Human", Record.mk "Rick Sanchez" "Alive" "Human"])
        "zzz").2.2
      = [PEvent.printed "No characters found with \x27zzz\x27 in their name."] :=
  (claim_C3
      (CharacterDataProcessor.mk
        [Record.mk "Morty Smith" "Alive" "Human", Record.mk "Rick Sanchez" "Alive" "Human"])
      "zzz").2.2.2.1 (by decide)

/-- Claim C4: the status distribution maps each distinct status of the
input to its number of occurrences, lists every distinct status exactly
once as a key in order of first occurrence, and its counts sum to the
length of the input. -/
theorem claim_C4 (p : CharacterDataProcessor) (path : String) :
    (display_status_distribution p path).2
      = [PEvent.chartSaved path (pyCounter (p.data.map Record.status)), PEvent.chartShown]
    ∧ (pyCounter (p.data.map Record.status)).map Prod.fst = firstOccs (p.data.map Record.status)
    ∧ ((pyCounter (p.data.map Record.status)).map Prod.fst).Nodup
    ∧ (∀ s : String,
        s ∈ (pyCounter (p.data.map Record.status)).map Prod.fst ↔ s ∈ p.data.map Record.status)
    ∧ (∀ (s : String) (n : Nat), (s, n) ∈ pyCounter (p.data.map Record.status) →
        n = (p.data.map Record.status).count s)
    ∧ ((pyCounter (p.data.map Record.status)).map Prod.snd).sum = p.data.length := by
  refine ⟨rfl, pyCounter_fst _, ?_, ?_, ?_, ?_⟩
  · rw [pyCounter_fst]; exact firstOccs_nodup _
  · intro s; rw [pyCounter_fst]; exact mem_firstOccs _ s
  · intro s n hm
    have hl := mem_lookupCount (pyCounter (p.data.map Record.status)) s n
      (by rw [pyCounter_fst]; exact firstOccs_nodup _) hm
    rw [hl, lookupCount_pyCounter]
  · rw [pyCounter_sum, List.length_map]

/-- Claim C4 witness: on a concrete three-record list the key "Alive"
carries the count 2. -/
theorem claim_C4_witness :
    2 = ((CharacterDataProcessor.mk
          [Record.mk "Rick" "Alive" "Human", Record.mk "Morty" "Alive" "Human",
            Record.mk "Birdperson" "Dead" "Alien"]).data.map Record.status).count "Alive" :=
  (claim_C4
      (CharacterDataProcessor.mk
        [Record.mk "Rick" "Alive" "Human", Record.mk "Morty" "Alive" "Human",
          Record.mk "Birdperson" "Dead" "Alien"])
      "status_distribution.png").2.2.2.2.1 "Alive" 2 (by decide)

/-- Claim C8: the default report performs exactly the three operations in
fixed order: status distribution with chart render, species filter with
target "Human", name search with term "Morty". -/
theorem claim_C8 (p : CharacterDataProcessor) :
    (process_data p).2
      = (display_status_distribution p "status_distribution.png").2
        ++ (show_characters_by_species p "Human").2.2
        ++ (find_characters_by_name p "Morty").2.2 := rfl

/-- Claim C9: none of the report operations changes the record collection
held by the processor: each returns `self` with the construction-time
data intact. -/
theorem claim_C9 (p : CharacterDataProcessor) (path target term : String) :
    (display_status_distribution p path).1 = p
    ∧ (show_characters_by_species p target).1 = p
    ∧ (find_characters_by_name p term).1 = p
    ∧ (process_data p).1 = p := by
  have hf : ∀ (q : CharacterDataProcessor) (s : String), (find_characters_by_name q s).1 = q := by
    intro q s
    rw [find_characters_by_name_eq]
  exact ⟨rfl, rfl, hf p term, hf p "Morty"⟩

/-- Claim C10: with a non-empty record list, the empty search term
matches every record: the name search returns the whole list in input
order and prints the header and one line per record, never the
not-found branch. -/
theorem claim_C10 (p : CharacterDataProcessor) (hne : p.data ≠ []) :
    (find_characters_by_name p "").2.1 = p.data
    ∧ (find_characters_by_name p "").2.2
        = PEvent.printed "\nCharacters containing \x27\x27 in their name:"
            :: p.data.map (fun c => PEvent.printed ("- " ++ c.name ++ " (" ++ c.species ++ ")")) := by
  have hdata : (pyLower "").data = [] := by decide
  have hf : p.data.filter (fun c => strIn (pyLower "").data (pyLower c.name).data) = p.data := by
    refine List.filter_eq_self.mpr ?_
    intro c _
    rw [hdata]
    exact strIn_nil_left _
  have hne2 : (p.data.filter (fun c => strIn (pyLower "").data (pyLower c.name).data)).isEmpty
      = false := by
    rw [hf]
    simp [List.isEmpty_eq_false, hne]
  rw [find_characters_by_name_eq]
  simp [hne2, hf, hne]

/-- Claim C10 witness: the empty search term over a one-record list
returns that record and prints its line under the header. -/
theorem claim_C10_witness :
    (find_characters_by_name (CharacterDataProcessor.mk [Record.mk "Rick" "Alive" "Human"]) "").2.1
      = (CharacterDataProcessor.mk [Record.mk "Rick" "Alive" "Human"]).data :=
  (claim_C10 (CharacterDataProcessor.mk [Record.mk "Rick" "Alive" "Human"]) (by decide)).1

/-- Claim C2 counterexample: at status 201 — a successful (2xx) status —
`get_characters` returns `None` rather than the `results` value, and at
the non-2xx status 304 it returns `None` rather than raising. -/
theorem claim_C2_counterexample :
    get_characters (HttpResponse.mk 201 [Record.mk "Rick" "Alive" "Human"])
        = FetchResult.returnedNone
    ∧ get_characters (HttpResponse.mk 201 [Record.mk "Rick" "Alive" "Human"])
        ≠ FetchResult.ok [Record.mk "Rick" "Alive" "Human"]
    ∧ get_characters (HttpResponse.mk 304 []) = FetchResult.returnedNone := by decide

/-- Claim C2 as amended: `get_characters` returns the `results` value
exactly for status 200, raises an `HTTPError` carrying the status exactly
for 4xx/5xx statuses, and returns `None` for every other status. -/
theorem claim_C2_amended (response : HttpResponse) :
    (response.status_code = 200 → get_characters response = FetchResult.ok response.results)
    ∧ (400 ≤ response.status_code ∧ response.status_code < 600 →
        get_characters response = FetchResult.raised response.status_code)
    ∧ (response.status_code ≠ 200 ∧ ¬(400 ≤ response.status_code ∧ response.status_code < 600) →
        get_characters response = FetchResult.returnedNone)
    ∧ (∀ s : Nat, get_characters response = FetchResult.raised s ↔
        s = response.status_code ∧ 400 ≤ response.status_code ∧ response.status_code < 600) := by
  refine ⟨?_, ?_, ?_, ?_⟩
  · intro h
    simp [get_characters, h]
  · intro h
    have hne : response.status_code ≠ 200 := by omega
    simp [get_characters, raise_for_status, hne, h]
  · intro h
    simp [get_characters, raise_for_status, h.1, h.2]
  · intro s
    constructor
    · intro h
      by_cases h200 : response.status_code = 200
      · simp [get_characters, h200] at h
      · by_cases hr : 400 ≤ response.status_code ∧ response.status_code < 600
        · simp [get_characters, raise_for_status, h200, hr] at h
          exact ⟨h.symm, hr⟩
        · simp [get_characters, raise_for_status, h200, hr] at h
    · rintro ⟨hs, hr⟩
      subst hs
      have hne : response.status_code ≠ 200 := by omega
      simp [get_characters, raise_for_status, hne, hr]

/-- Claim C2 witness: a 404 response raises an `HTTPError` carrying 404. -/
theorem claim_C2_witness :
    get_characters (HttpResponse.mk 404 []) = FetchResult.raised 404 :=
  (claim_C2_amended (HttpResponse.mk 404 [])).2.1 (by decide)

/-- Claim C6: when the Redis server is unreachable (and the fetch did not
already raise), the run prints the diagnostic and exits with status 1,
executing no further pipeline stage; and an `exit` arises only this way,
always with status 1. -/
theorem claim_C6 (ex : WorkflowExecutor) (env : RunEnv) :
    (¬(400 ≤ env.response.status_code ∧ env.response.status_code < 600) →
      env.redisUp = false →
      execute ex env = (RunResult.exitedWith 1, [Event.printed (redisDiagnostic env.redisErrMsg)]))
    ∧ (∀ (c : Nat) (evs : List Event), execute ex env = (RunResult.exitedWith c, evs) →
        c = 1 ∧ env.redisUp = false
          ∧ evs = [Event.printed (redisDiagnostic env.redisErrMsg)]) := by
  refine ⟨?_, ?_⟩
  · intro hr hdown
    by_cases h200 : env.response.status_code = 200
    · simp [execute, get_characters, h200, hdown]
    · simp [execute, get_characters, raise_for_status, h200, hr, hdown]
  · intro c evs h
    by_cases h200 : env.response.status_code = 200
    · cases hup : env.redisUp
      · simp [execute, get_characters, h200, hup] at h
        exact ⟨h.1.symm, rfl, h.2.symm⟩
      · simp [execute, get_characters, h200, hup] at h
    · by_cases hr : 400 ≤ env.response.status_code ∧ env.response.status_code < 600
      · simp [execute, get_characters, raise_for_status, h200, hr] at h
      · cases hup : env.redisUp
        · simp [execute, get_characters, raise_for_status, h200, hr, hup] at h
          exact ⟨h.1.symm, rfl, h.2.symm⟩
        · simp [execute, get_characters, raise_for_status, h200, hr, hup] at h

/-- Claim C6 witness: against an unreachable store, a run whose fetch
succeeded exits with status 1 right after the diagnostic. -/
theorem claim_C6_witness :
    execute (WorkflowExecutor.mk "https://rickandmortyapi.com/api/character"
        "rickandmorty:characters")
        (RunEnv.mk (HttpResponse.mk 200 []) false "Connection refused.")
      = (RunResult.exitedWith 1, [Event.printed (redisDiagnostic "Connection refused.")]) :=
  (claim_C6 (WorkflowExecutor.mk "https://rickandmortyapi.com/api/character"
      "rickandmorty:characters")
      (RunEnv.mk (HttpResponse.mk 200 []) false "Connection refused.")).1 (by decide) rfl

/-- Claim C7: in a run where the fetch yields `rs` and the store is up,
the cache write stores exactly the serialization of `rs`, the processor
is constructed over `rs` itself, and no cache read ever happens. -/
theorem claim_C7 (ex : WorkflowExecutor) (env : RunEnv) (rs : List Record)
    (hok : get_characters env.response = FetchResult.ok rs) (hup : env.redisUp = true) :
    execute ex env
      = (RunResult.completed,
          Event.redisSet ex.redis_key (json_dumps rs)
            :: ((process_data (CharacterDataProcessor.mk rs)).2.map Event.report))
    ∧ (∀ k : String, Event.redisGet k ∉ (execute ex env).2) := by
  have he : execute ex env
      = (RunResult.completed,
          Event.redisSet ex.redis_key (json_dumps rs)
            :: ((process_data (CharacterDataProcessor.mk rs)).2.map Event.report)) := by
    simp [execute, hok, hup]
  refine ⟨he, ?_⟩
  intro k
  rw [he]
  simp

/-- Claim C7 witness: with an empty fetched list the run completes,
writing the serialized empty list and reporting over the fetched list. -/
theorem claim_C7_witness :
    execute (WorkflowExecutor.mk "u" "k") (RunEnv.mk (HttpResponse.mk 200 []) true "")
      = (RunResult.completed,
          Event.redisSet "k" (json_dumps [])
            :: ((process_data (CharacterDataProcessor.mk [])).2.map Event.report)) :=
  (claim_C7 (WorkflowExecutor.mk "u" "k") (RunEnv.mk (HttpResponse.mk 200 []) true "")
      [] rfl rfl).1

/-! Helper lemmas for the JSON round trip. -/

theorem hexCharVal_hexDigitChar : ∀ d : Nat, d < 16 → hexCharVal (hexDigitChar d) = some d := by
  decide

theorem parseHex4_hex4 (n : Nat) (hn : n < 65536) (rest : List Char) :
    parseHex4 (hex4 n ++ rest) = some (n, rest) := by
  have e1 := hexCharVal_hexDigitChar (n / 4096 % 16) (Nat.mod_lt _ (by norm_num))
  have e2 := hexCharVal_hexDigitChar (n / 256 % 16) (Nat.mod_lt _ (by norm_num))
  have e3 := hexCharVal_hexDigitChar (n / 16 % 16) (Nat.mod_lt _ (by norm_num))
  have e4 := hexCharVal_hexDigitChar (n % 16) (Nat.mod_lt _ (by norm_num))
  simp only [hex4, List.cons_append, List.nil_append, parseHex4, e1, e2, e3, e4]
  have harith : n / 4096 % 16 * 4096 + n / 256 % 16 * 256 + n / 16 % 16 * 16 + n % 16 = n := by
    omega
  rw [harith]

theorem char_toNat_valid (c : Char) :
    c.toNat < 55296 ∨ (57343 < c.toNat ∧ c.toNat < 1114112) := by
  have h := c.valid
  simpa [UInt32.isValidChar, Nat.isValidChar, Char.toNat] using h

theorem escapeChar_length_pos (c : Char) : 0 < (escapeChar c).length := by
  unfold escapeChar
  repeat' split
  all_goals simp

theorem escapeList_length_ge (s : List Char) : s.length ≤ (escapeList s).length := by
  induction s with
  | nil => simp [escapeList]
  | cons c t ih =>
      have := escapeChar_length_pos c
      simp only [escapeList, List.length_append, List.length_cons]
      omega

theorem stripLit_append (p l : List Char) : stripLit p (p ++ l) = some l := by
  induction p with
  | nil => rfl
  | cons c t ih => simp [stripLit, ih]

theorem parseJStringAux_esc (fuel : Nat) (rest : List Char) (c : Char) (tail : List Char)
    (h : parseEscape rest = some (c, tail)) :
    parseJStringAux (fuel + 1) ('\\' :: rest)
      = (parseJStringAux fuel tail).map (fun sr => (c :: sr.1, sr.2)) := by
  rw [parseJStringAux, if_neg (by decide : ¬('\\' : Char) = '"'), if_pos rfl, h]
  cases hp : parseJStringAux fuel tail with
  | none => simp [hp]
  | some sr => obtain ⟨s, r⟩ := sr; simp [hp]

theorem parseJStringAux_plain (fuel : Nat) (c : Char) (tail : List Char)
    (h1 : ¬c = '"') (h2 : ¬c = '\\') :
    parseJStringAux (fuel + 1) (c :: tail)
      = (parseJStringAux fuel tail).map (fun sr => (c :: sr.1, sr.2)) := by
  rw [parseJStringAux, if_neg h1, if_neg h2]
  cases hp : parseJStringAux fuel tail with
  | none => simp [hp]
  | some sr => obtain ⟨s, r⟩ := sr; simp [hp]

theorem parseEscape_u_bmp (n : Nat) (tail : List Char) (hn : n < 65536)
    (hno : ¬(55296 ≤ n ∧ n < 57344)) :
    parseEscape ('u' :: (hex4 n ++ tail)) = some (Char.ofNat n, tail) := by
  have h1 : ¬(55296 ≤ n ∧ n < 56320) := by omega
  have h2 : ¬(56320 ≤ n ∧ n < 57344) := by omega
  simp [parseEscape, parseHex4_hex4 n hn, h1, h2]

theorem parseEscape_u_pair (hi lo : Nat) (tail : List Char)
    (hhi : 55296 ≤ hi ∧ hi < 56320) (hlo : 56320 ≤ lo ∧ lo < 57344) :
    parseEscape ('u' :: (hex4 hi ++ ('\\' :: 'u' :: (hex4 lo ++ tail))))
      = some (Char.ofNat (65536 + (hi - 55296) * 1024 + (lo - 56320)), tail) := by
  simp [parseEscape, parseHex4_hex4 hi (by omega : hi < 65536),
    parseHex4_hex4 lo (by omega : lo < 65536), hhi.1, hhi.2, hlo.1, hlo.2]

theorem parseJStringAux_escapeChar (c : Char) (tail : List Char) (fuel : Nat) :
    parseJStringAux (fuel + 1) (escapeChar c ++ tail)
      = (parseJStringAux fuel tail).map (fun sr => (c :: sr.1, sr.2)) := by
  have hv := char_toNat_valid c
  by_cases h1 : c = '"'
  · subst h1
    exact parseJStringAux_esc fuel _ _ tail (by simp [parseEscape])
  by_cases h2 : c = '\\'
  · subst h2
    exact parseJStringAux_esc fuel _ _ tail (by simp [parseEscape])
  by_cases h3 : c = '\n'
  · subst h3
    exact parseJStringAux_esc fuel _ _ tail (by simp [parseEscape])
  by_cases h4 : c = '\r'
  · subst h4
    exact parseJStringAux_esc fuel _ _ tail (by simp [parseEscape])
  by_cases h5 : c = '\t'
  · subst h5
    exact parseJStringAux_esc fuel _ _ tail (by simp [parseEscape])
  by_cases h6 : c = '\x08'
  · subst h6
    exact parseJStringAux_esc fuel _ _ tail (by simp [parseEscape])
  by_cases h7 : c = '\x0c'
  · subst h7
    exact parseJStringAux_esc fuel _ _ tail (by simp [parseEscape])
  by_cases hc32 : c.toNat < 32
  · have he : escapeChar c = '\\' :: 'u' :: hex4 c.toNat := by
      rw [escapeChar, if_neg h1, if_neg h2, if_neg h3, if_neg h4, if_neg h5, if_neg h6,
        if_neg h7, if_pos hc32]
    rw [he]
    simp only [List.cons_append]
    have hp : parseEscape ('u' :: (hex4 c.toNat ++ tail)) = some (c, tail) := by
      rw [parseEscape_u_bmp c.toNat tail (by omega) (by omega), Char.ofNat_toNat]
    exact parseJStringAux_esc fuel _ c tail hp
  by_cases hc127 : c.toNat < 127
  · have he : escapeChar c = [c] := by
      rw [escapeChar, if_neg h1, if_neg h2, if_neg h3, if_neg h4, if_neg h5, if_neg h6,
        if_neg h7, if_neg hc32, if_pos hc127]
    rw [he]
    simp only [List.singleton_append]
    exact parseJStringAux_plain fuel c tail h1 h2
  by_cases hbmp : c.toNat < 65536
  · have hns : ¬(55296 ≤ c.toNat ∧ c.toNat < 57344) := by
      rcases hv with h | h
      · omega
      · omega
    have he : escapeChar c = '\\' :: 'u' :: hex4 c.toNat := by
      rw [escapeChar, if_neg h1, if_neg h2, if_neg h3, if_neg h4, if_neg h5, if_neg h6,
        if_neg h7, if_neg hc32, if_neg hc127, if_pos hbmp]
    rw [he]
    simp only [List.cons_append]
    have hp : parseEscape ('u' :: (hex4 c.toNat ++ tail)) = some (c, tail) := by
      rw [parseEscape_u_bmp c.toNat tail (by omega) (by omega), Char.ofNat_toNat]
    exact parseJStringAux_esc fuel _ c tail hp
  · have hupper : c.toNat < 1114112 := by
      rcases hv with h | h
      · omega
      · omega
    have he : escapeChar c
        = '\\' :: 'u' :: (hex4 (55296 + (c.toNat - 65536) / 1024) ++
            ('\\' :: 'u' :: hex4 (56320 + (c.toNat - 65536) % 1024))) := by
      rw [escapeChar, if_neg h1, if_neg h2, if_neg h3, if_neg h4, if_neg h5, if_neg h6,
        if_neg h7, if_neg hc32, if_neg hc127, if_neg hbmp]
    rw [he]
    simp only [List.cons_append, List.append_assoc]
    have hp : parseEscape ('u' :: (hex4 (55296 + (c.toNat - 65536) / 1024) ++
        ('\\' :: 'u' :: (hex4 (56320 + (c.toNat - 65536) % 1024) ++ tail)))) = some (c, tail) := by
      rw [parseEscape_u_pair (55296 + (c.toNat - 65536) / 1024)
        (56320 + (c.toNat - 65536) % 1024) tail
        ⟨by omega, by omega⟩ ⟨by omega, by omega⟩]
      have harith : 65536 + (55296 + (c.toNat - 65536) / 1024 - 55296) * 1024
          + (56320 + (c.toNat - 65536) % 1024 - 56320) = c.toNat := by omega
      rw [harith, Char.ofNat_toNat]
    exact parseJStringAux_esc fuel _ c tail hp

theorem parseJStringAux_escapeList (s : List Char) :
    ∀ (fuel : Nat) (tail : List Char), s.length < fuel →
      parseJStringAux fuel (escapeList s ++ ('"' :: tail)) = some (s, tail) := by
  induction s with
  | nil =>
      intro fuel tail hf
      cases fuel with
      | zero => omega
      | succ f =>
          simp [escapeList, parseJStringAux]
  | cons c t ih =>
      intro fuel tail hf
      cases fuel with
      | zero => omega
      | succ f =>
          have hlt : t.length < f := by
            simp only [List.length_cons] at hf
            omega
          rw [escapeList, List.append_assoc, parseJStringAux_escapeChar c _ f,
            ih f tail hlt]
          rfl

theorem parseJString_at_length (s tail : List Char) :
    parseJStringAux (escapeList s ++ ('"' :: tail)).length (escapeList s ++ ('"' :: tail))
      = some (s, tail) := by
  apply parseJStringAux_escapeList
  have := escapeList_length_ge s
  simp only [List.length_append, List.length_cons]
  omega

theorem parseRecordChars_dump (r : Record) (rest : List Char) :
    parseRecordChars (dumpRecordChars r ++ rest) = some (r, rest) := by
  rw [dumpRecordChars]
  simp only [List.append_assoc, List.cons_append]
  rw [parseRecordChars]
  rw [stripLit_append]
  simp only [parseJString_at_length, stripLit_append]

theorem parseItemsAux_joinTail (rs : List Record) :
    ∀ (fuel : Nat) (rest : List Char), (joinTail rs ++ (']' :: rest)).length ≤ fuel →
      parseItemsAux fuel (joinTail rs ++ (']' :: rest)) = some (rs, rest) := by
  induction rs with
  | nil =>
      intro fuel rest hf
      cases fuel with
      | zero => simp [joinTail] at hf
      | succ f => simp [joinTail, parseItemsAux]
  | cons r rs ih =>
      intro fuel rest hf
      cases fuel with
      | zero => simp [joinTail] at hf
      | succ f =>
          have hrem : (joinTail rs ++ (']' :: rest)).length ≤ f := by
            simp only [joinTail, List.cons_append, List.append_assoc, List.length_cons,
              List.length_append] at hf ⊢
            omega
          rw [joinTail]
          simp only [List.cons_append, List.append_assoc]
          rw [parseItemsAux]
          simp only [if_neg (by decide : ¬(',' : Char) = ']'), if_pos (rfl : (',' : Char) = ','),
            if_pos (rfl : (' ' : Char) = ' '), parseRecordChars_dump, ih f rest hrem, if_true,
            eq_self_iff_true]

theorem json_loads_json_dumps (value : List Record) :
    json_loads (json_dumps value) = some value := by
  cases value with
  | nil => rfl
  | cons r rs =>
      have hshape : dumpRecordChars r ++ (joinTail rs ++ ([']'] : List Char))
          = '\x7b' :: ("\"name\": \"".data ++ (escapeList r.name.data ++ ('"' ::
              (litAfterName ++ (escapeList r.status.data ++ ('"' ::
                (litAfterStatus ++ (escapeList r.species.data ++ ('"' ::
                  (litAfterSpecies ++ (joinTail rs ++ [']']))))))))))) := by
        simp only [dumpRecordChars, litRecStart, List.cons_append, List.append_assoc]
      rw [json_dumps, json_loads]
      simp only [dumpRecordsBody, List.append_assoc]
      rw [hshape]
      simp only [if_pos (rfl : ('[' : Char) = '['), if_neg (by decide : ¬('\x7b' : Char) = ']'),
        if_true, eq_self_iff_true]
      rw [← hshape]
      rw [parseRecordChars_dump]
      simp only [parseItemsAux_joinTail rs ((joinTail rs ++ (']' :: [])).length) []
        (Nat.le_refl _), List.isEmpty_nil, if_true]

/-- Claim C5: loading a key immediately after saving a record collection
under it yields the collection back — identical records, field values and
order. -/
theorem claim_C5 (store : RedisStore) (key : String) (value : List Record) :
    load_data (save_data store key value) key = LoadResult.ok value := by
  have hne : json_dumps value ≠ "" := by
    intro h
    have hd : (json_dumps value).data = ("" : String).data := by rw [h]
    simp [json_dumps] at hd
  simp [load_data, save_data, hne, json_loads_json_dumps]
